import Mathlib

/-!
Verification of the checkers TCP server (src/Server) against its
natural-language specification.  The C sources are shallowly embedded:
C strings become `List Char` / `String` values (C strings never contain
a NUL byte, and `int` counters that are only ever incremented from 0
become `Nat`; `int` values that the code compares against negative
numbers become `Int`).  Each definition mirrors one function of the
source, named after it.
-/

set_option maxHeartbeats 1000000

deriving instance DecidableEq for Except

namespace CheckersTCP

/-! ## Protocol constants (src/Server/protocol.h) -/

/-- Protocol identifier prefix literal `"DENTCP"` (protocol.h line 13). -/
def PFX : List Char := ['D', 'E', 'N', 'T', 'C', 'P']

/-- Length of the protocol prefix (protocol.h line 14). -/
def PFX_LEN : Nat := 6

/-- Maximum total message length (protocol.h line 15). -/
def MAX_MESSAGE_LEN : Nat := 8192

/-- Maximum payload size, `MAX_MESSAGE_LEN - PREFIX_LEN - 7 = 8179` (protocol.h line 16). -/
def MAX_DATA_LEN : Nat := MAX_MESSAGE_LEN - PFX_LEN - 7

/-- Maximum violations before disconnect (protocol.h line 101). -/
def MAX_VIOLATIONS : Nat := 1

/-- Reasons for disconnecting clients (protocol.h, enum `DisconnectReason`).
Constructor names follow the C enumerators (`DISCONNECT_REASON_*`), with
`INVALID_PFX` standing for the enumerator about a wrong protocol prefix. -/
inductive DisconnectReason where
  | INVALID_PFX
  | INVALID_FORMAT
  | INVALID_OPCODE
  | INVALID_LENGTH
  | DATA_MISMATCH
  | BUFFER_OVERFLOW
  | TOO_MANY_VIOLATIONS
  | SUSPICIOUS_ACTIVITY
deriving DecidableEq, Repr

/-- Parsed message structure (protocol.h, struct `Message`).  `op` and `len`
are the numeric values parsed out of the frame; `data` is the payload. -/
structure Message where
  op : Nat
  len : Nat
  data : List Char
deriving DecidableEq, Repr

/-- Validates if operation code is within valid range (protocol.c
`is_valid_opcode`): `(op >= OP_LOGIN && op <= OP_GAME_RESUMED) || op == OP_ERROR`,
i.e. 1..29 or 500. -/
def is_valid_opcode (op : Nat) : Bool :=
  (1 ≤ op && op ≤ 29) || op == 500

/-- C `isdigit` restricted to the characters that can occur in the fields the
parser checks: true exactly for `'0'..'9'` (byte values 48..57). -/
def c_isdigit (c : Char) : Bool :=
  48 ≤ c.toNat && c.toNat ≤ 57

/-- Checks if a string contains only numeric digits (protocol.c
`is_numeric_string`): false for length 0, else all characters must be digits. -/
def is_numeric_string (l : List Char) : Bool :=
  decide (0 < l.length) && l.all c_isdigit

/-- C `atoi` on a string that `is_numeric_string` accepted: the denoted
decimal value. -/
def atoiNat (l : List Char) : Nat :=
  l.foldl (fun a c => 10 * a + (c.toNat - 48)) 0

/-! ## parse_message (protocol.c lines 125-232)

The input is the NUL-terminated line the client handler accumulated
(terminating `'\n'` already replaced, see server.c lines 1995-2020),
modelled as the list of its characters.  `strchr(ptr, '|')` splitting is
modelled with `takeWhile` / `dropWhile`: the field before the first `'|'`
and the rest starting at that `'|'` (`dropWhile` returning `[]` is
`strchr` returning NULL). -/

/-- Parses an incoming protocol message (protocol.c `parse_message`).
Returns the parsed message or the `DisconnectReason` the C code reports
through its out-parameter when the function returns -1.  The checks are
performed in the source's order:
prefix, separator after prefix, OP separator, OP field length bounds
(0 < len < 16), OP numeric, OP in valid range, LEN separator, LEN field
length bounds, LEN numeric, LEN value range (`0..MAX_DATA_LEN-1`), and
finally the actual payload length bound (`> MAX_DATA_LEN-1` is reported
as a buffer-overflow attempt). -/
def parse_message (buffer : List Char) : Except DisconnectReason Message :=
  if buffer.take PFX_LEN ≠ PFX then .error .INVALID_PFX
  else
    match buffer.drop PFX_LEN with
    | [] => .error .INVALID_FORMAT
    | c0 :: ptr =>
      if c0 ≠ '|' then .error .INVALID_FORMAT
      else
        let opf := ptr.takeWhile (fun c => c != '|')
        match ptr.dropWhile (fun c => c != '|') with
        | [] => .error .INVALID_FORMAT
        | _ :: rest2 =>
          if opf.length = 0 ∨ 16 ≤ opf.length then .error .INVALID_FORMAT
          else if !is_numeric_string opf then .error .INVALID_OPCODE
          else if !is_valid_opcode (atoiNat opf) then .error .INVALID_OPCODE
          else
            let lenf := rest2.takeWhile (fun c => c != '|')
            match rest2.dropWhile (fun c => c != '|') with
            | [] => .error .INVALID_FORMAT
            | _ :: dataPart =>
              if lenf.length = 0 ∨ 16 ≤ lenf.length then .error .INVALID_LENGTH
              else if !is_numeric_string lenf then .error .INVALID_LENGTH
              else if MAX_DATA_LEN - 1 < atoiNat lenf then .error .INVALID_LENGTH
              else if MAX_DATA_LEN - 1 < dataPart.length then .error .BUFFER_OVERFLOW
              else .ok ⟨atoiNat opf, atoiNat lenf, dataPart⟩

/-! ## create_message (protocol.c lines 244-255) -/

/-- Decimal digit list of a natural number, most significant digit first
(the digits `%d` formatting produces).  Structural fuel recursion so the
kernel can evaluate it; the fuel `n+1` always suffices. -/
def natDigitsAux (fuel n : Nat) : List Char :=
  match fuel with
  | 0 => []
  | fuel + 1 =>
    if n < 10 then [Nat.digitChar n]
    else natDigitsAux fuel (n / 10) ++ [Nat.digitChar (n % 10)]

/-- Decimal digits of `n`, as printed by `%d`. -/
def natDigits (n : Nat) : List Char := natDigitsAux (n + 1) n

/-- Zero padding to width `w`, as printed by `%0wd` for non-negative values. -/
def padZeros (w : Nat) (l : List Char) : List Char :=
  List.replicate (w - l.length) '0' ++ l

/-- Creates a protocol message for sending (protocol.c `create_message`):
`snprintf(buffer, MAX_MESSAGE_LEN, "%s|%02d|%04d|%s\n", PREFIX, op, data_len, data)`.
`snprintf` returns the length the full message would have; the C function
returns -1 (here: `none`) when that length is `>= MAX_MESSAGE_LEN`, because
the message did not fit in the buffer. -/
def create_message (op : Nat) (data : List Char) : Option (List Char) :=
  let s := PFX ++ '|' :: (padZeros 2 (natDigits op) ++
           '|' :: (padZeros 4 (natDigits data.length) ++ '|' :: (data ++ ['\n'])))
  if MAX_MESSAGE_LEN ≤ s.length then none else some s

/-- Frame extraction done by the client handler (server.c lines 1966-2020):
bytes accumulate until a `'\n'` arrives; the first complete line (without
its `'\n'`) is handed to `parse_message`.  Without a `'\n'` no frame is
decoded yet. -/
def extract_line (bytes : List Char) : Option (List Char) :=
  if '\n' ∈ bytes then some (bytes.takeWhile (fun c => c != '\n')) else none

/-- Decode pipeline: frame extraction followed by `parse_message`. -/
def decode (bytes : List Char) : Option (Except DisconnectReason Message) :=
  (extract_line bytes).map parse_message

/-! ## Opcodes and the session state machine
(src/Server/protocol.h enum `OpCode`, src/Server/client_state_machine.c) -/

/-- Protocol operation codes (protocol.h, enum `OpCode`). -/
inductive OpCode where
  | OP_LOGIN
  | OP_LOGIN_OK
  | OP_LOGIN_FAIL
  | OP_CREATE_ROOM
  | OP_JOIN_ROOM
  | OP_ROOM_JOINED
  | OP_ROOM_FULL
  | OP_ROOM_FAIL
  | OP_ROOM_CREATED
  | OP_LEAVE_ROOM
  | OP_ROOM_LEFT
  | OP_LIST_ROOMS
  | OP_ROOMS_LIST
  | OP_GAME_START
  | OP_MOVE
  | OP_MULTI_MOVE
  | OP_INVALID_MOVE
  | OP_GAME_STATE
  | OP_GAME_END
  | OP_GAME_PAUSED
  | OP_GAME_RESUMED
  | OP_PING
  | OP_PONG
  | OP_PLAYER_DISCONNECTED
  | OP_PLAYER_RECONNECTING
  | OP_PLAYER_RECONNECTED
  | OP_RECONNECT_REQUEST
  | OP_RECONNECT_OK
  | OP_RECONNECT_FAIL
  | OP_ERROR
deriving DecidableEq, Repr, Fintype

/-- Numeric value of each opcode (protocol.h). -/
def opCodeValue : OpCode → Nat
  | .OP_LOGIN => 1
  | .OP_LOGIN_OK => 2
  | .OP_LOGIN_FAIL => 3
  | .OP_CREATE_ROOM => 4
  | .OP_JOIN_ROOM => 5
  | .OP_ROOM_JOINED => 6
  | .OP_ROOM_FULL => 7
  | .OP_ROOM_FAIL => 8
  | .OP_GAME_START => 9
  | .OP_MOVE => 10
  | .OP_INVALID_MOVE => 11
  | .OP_GAME_STATE => 12
  | .OP_GAME_END => 13
  | .OP_LEAVE_ROOM => 14
  | .OP_ROOM_LEFT => 15
  | .OP_PING => 16
  | .OP_PONG => 17
  | .OP_LIST_ROOMS => 18
  | .OP_ROOMS_LIST => 19
  | .OP_ROOM_CREATED => 20
  | .OP_MULTI_MOVE => 21
  | .OP_PLAYER_DISCONNECTED => 22
  | .OP_PLAYER_RECONNECTING => 23
  | .OP_PLAYER_RECONNECTED => 24
  | .OP_RECONNECT_REQUEST => 25
  | .OP_RECONNECT_OK => 26
  | .OP_RECONNECT_FAIL => 27
  | .OP_GAME_PAUSED => 28
  | .OP_GAME_RESUMED => 29
  | .OP_ERROR => 500

/-- Client game states (client_state_machine.h, enum `ClientGameState`). -/
inductive ClientGameState where
  | NOT_LOGGED_IN
  | IN_LOBBY
  | IN_ROOM_WAITING
  | IN_GAME
deriving DecidableEq, Repr, Fintype

/-- Client connection states (server.h, enum `ClientState`). -/
inductive ClientState where
  | CONNECTED
  | DISCONNECTED
  | RECONNECTING
  | TIMEOUT
  | REMOVED
deriving DecidableEq, Repr, Fintype

/-- Converts client state to string (server.c `client_get_state_string`). -/
def client_get_state_string : ClientState → String
  | .CONNECTED => "CONNECTED"
  | .DISCONNECTED => "DISCONNECTED"
  | .RECONNECTING => "RECONNECTING"
  | .TIMEOUT => "TIMEOUT"
  | .REMOVED => "REMOVED"

/-- List of operations allowed in a given game state
(client_state_machine.c `get_allowed_operations`), in the order the C code
fills the `allowed_ops` array. -/
def get_allowed_operations : ClientGameState → List OpCode
  | .NOT_LOGGED_IN =>
      [.OP_LOGIN, .OP_PONG, .OP_PING, .OP_RECONNECT_REQUEST, .OP_ERROR]
  | .IN_LOBBY =>
      [.OP_CREATE_ROOM, .OP_JOIN_ROOM, .OP_LIST_ROOMS, .OP_PONG, .OP_PING,
       .OP_RECONNECT_REQUEST, .OP_ERROR]
  | .IN_ROOM_WAITING =>
      [.OP_LEAVE_ROOM, .OP_JOIN_ROOM, .OP_LIST_ROOMS, .OP_PONG, .OP_PING,
       .OP_RECONNECT_REQUEST, .OP_ERROR]
  | .IN_GAME =>
      [.OP_MOVE, .OP_MULTI_MOVE, .OP_LIST_ROOMS, .OP_LEAVE_ROOM, .OP_PONG,
       .OP_PING, .OP_RECONNECT_REQUEST, .OP_ERROR]

/-- Checks if an operation is allowed in the current game state
(client_state_machine.c `is_operation_allowed`): linear scan of the
allowed-operations array for an equal opcode. -/
def is_operation_allowed (state : ClientGameState) (op : OpCode) : Bool :=
  (get_allowed_operations state).contains op

/-- Whitelists of section 4.2 of the specification, written from the
specification's table (NOT from the code) for the refinement comparison of
claim C1. -/
def spec_allowed_ops : ClientGameState → List OpCode
  | .NOT_LOGGED_IN =>
      [.OP_LOGIN, .OP_PING, .OP_PONG, .OP_RECONNECT_REQUEST, .OP_ERROR]
  | .IN_LOBBY =>
      [.OP_CREATE_ROOM, .OP_JOIN_ROOM, .OP_LIST_ROOMS, .OP_PING, .OP_PONG,
       .OP_RECONNECT_REQUEST, .OP_ERROR]
  | .IN_ROOM_WAITING =>
      [.OP_LEAVE_ROOM, .OP_JOIN_ROOM, .OP_LIST_ROOMS, .OP_PING, .OP_PONG,
       .OP_RECONNECT_REQUEST, .OP_ERROR]
  | .IN_GAME =>
      [.OP_MOVE, .OP_MULTI_MOVE, .OP_LEAVE_ROOM, .OP_LIST_ROOMS, .OP_PING,
       .OP_PONG, .OP_RECONNECT_REQUEST, .OP_ERROR]

/-- What `validate_operation` does to a rejected client: nothing (allowed),
a warning message, or disconnection through `disconnect_malicious_client`. -/
inductive VAction where
  | allowed
  | warned
  | disconnected
deriving DecidableEq, Repr

/-- Validates if an operation is allowed in the client's current game state
(server.c `validate_operation`, lines 2142-2173).  `unknown_count` is the
client's `violations.unknown_opcode_count`.  Returns whether the dispatch
loop proceeds to the opcode's handler, the new counter, and the side effect
taken on rejection: the counter is incremented and, when it reaches
`MAX_VIOLATIONS`, the client is disconnected via
`disconnect_malicious_client`; otherwise only a warning is sent. -/
def validate_operation (state : ClientGameState) (unknown_count : Nat)
    (op : OpCode) : Bool × Nat × VAction :=
  if is_operation_allowed state op then (true, unknown_count, .allowed)
  else
    let cnt := unknown_count + 1
    if MAX_VIOLATIONS ≤ cnt then (false, cnt, .disconnected)
    else (false, cnt, .warned)

/-! ## Game state (src/Server/game.h, game.c)

Board cells are the C `int` codes EMPTY=0, WHITE_PIECE=1, WHITE_KING=2,
BLACK_PIECE=3, BLACK_KING=4; the board is the 8x8 `int` array as a list of
rows.  Row/column indices stay `Int` because the C code bounds-checks them
against negative values.  `getCell`/`setCell` model `game->board[r][c]`
reads and writes; the C code only accesses the board after the bounds check
in `validate_single_step` (or on already-validated coordinates), so the
out-of-range default never matters on the paths modelled here. -/

/-- Game state structure (game.h, struct `Game`). -/
structure Game where
  board : List (List Nat)
  player1 : String
  player2 : String
  current_turn : String
  player1_color : Nat
  player2_color : Nat
  game_active : Bool
deriving DecidableEq, Repr

/-- Board read `board[r][c]`. -/
def getCell (b : List (List Nat)) (r c : Int) : Nat :=
  (b.getD r.toNat []).getD c.toNat 0

/-- Board write `board[r][c] = v`. -/
def setCell (b : List (List Nat)) (r c : Int) (v : Nat) : List (List Nat) :=
  b.set r.toNat ((b.getD r.toNat []).set c.toNat v)

/-- Checks if a piece is a king (game.c `is_king`). -/
def is_king (piece : Nat) : Bool :=
  piece == 2 || piece == 4

/-- Checks if a piece belongs to the specified color (game.c
`piece_belongs_to_color`): color `COLOR_WHITE = 1` owns pieces 1 and 2,
anything else owns pieces 3 and 4. -/
def piece_belongs_to_color (piece color : Nat) : Bool :=
  if color == 1 then piece == 1 || piece == 2
  else piece == 3 || piece == 4

/-- One iteration of the king-path scan of `validate_single_step`
(game.c lines 196-216): `none` models an early `return false` (own piece in
the path, or a second enemy); otherwise the accumulated enemy count. -/
def king_scan_step (b : List (List Nat)) (color : Nat) (fr fc dR dC : Int)
    (acc : Option Nat) (step : Nat) : Option Nat :=
  match acc with
  | none => none
  | some enemies =>
    let p := getCell b (fr + dR * (step : Int)) (fc + dC * (step : Int))
    if p = 0 then some enemies
    else if piece_belongs_to_color p color then none
    else if 1 ≤ enemies then none
    else some (enemies + 1)

/-- Validates a single move step according to checkers rules
(game.c `validate_single_step`), in the source's order: bounds check,
destination empty, source nonempty, piece ownership, diagonal, then the
king path scan or the regular-piece step/capture rules. -/
def validate_single_step (g : Game) (from_row from_col to_row to_col : Int)
    (player : String) : Bool :=
  if from_row < 0 || 8 ≤ from_row || from_col < 0 || 8 ≤ from_col ||
     to_row < 0 || 8 ≤ to_row || to_col < 0 || 8 ≤ to_col then false
  else if getCell g.board to_row to_col != 0 then false
  else
    let piece := getCell g.board from_row from_col
    if piece = 0 then false
    else
      let player_color := if player = g.player1 then g.player1_color else g.player2_color
      if !piece_belongs_to_color piece player_color then false
      else
        let row_diff : Int := to_row - from_row
        let col_diff : Nat := (to_col - from_col).natAbs
        let abs_row_diff : Nat := row_diff.natAbs
        if abs_row_diff != col_diff then false
        else if is_king piece then
          let dR : Int := if 0 < row_diff then 1 else -1
          let dC : Int := if from_col < to_col then 1 else -1
          match (List.range' 1 (abs_row_diff - 1)).foldl
              (king_scan_step g.board player_color from_row from_col dR dC)
              (some 0) with
          | none => false
          | some _ => true
        else if abs_row_diff == 1 && col_diff == 1 then
          if piece == 1 && row_diff == -1 then true
          else if piece == 3 && row_diff == 1 then true
          else false
        else if abs_row_diff == 2 && col_diff == 2 then
          let mid_row := (from_row + to_row) / 2
          let mid_col := (from_col + to_col) / 2
          let mid_piece := getCell g.board mid_row mid_col
          if mid_piece = 0 then false
          else if piece == 1 || piece == 2 then mid_piece == 3 || mid_piece == 4
          else if piece == 3 || piece == 4 then mid_piece == 1 || mid_piece == 2
          else false
        else false

/-- Validates a complete move including turn verification (game.c
`validate_move`): `strcmp(game->current_turn, player) != 0` rejects. -/
def validate_move (g : Game) (from_row from_col to_row to_col : Int)
    (player : String) : Bool :=
  if g.current_turn != player then false
  else validate_single_step g from_row from_col to_row to_col player

/-- Applies a single move step to the board (game.c `apply_single_step`):
move the piece, clear the source, remove any nonempty squares strictly
between source and destination of a jump (`row_diff >= 2`), then promote a
regular piece that reached the opposite end. -/
def apply_single_step (g : Game) (from_row from_col to_row to_col : Int) : Game :=
  let piece := getCell g.board from_row from_col
  let b0 := setCell g.board to_row to_col piece
  let b1 := setCell b0 from_row from_col 0
  let row_diff : Nat := (to_row - from_row).natAbs
  let b2 :=
    if 2 ≤ row_diff then
      let dR : Int := if from_row < to_row then 1 else -1
      let dC : Int := if from_col < to_col then 1 else -1
      (List.range' 1 (row_diff - 1)).foldl
        (fun bb step =>
          let mr := from_row + dR * (step : Int)
          let mc := from_col + dC * (step : Int)
          if getCell bb mr mc != 0 then setCell bb mr mc 0 else bb) b1
    else b1
  if piece == 1 && to_row == 0 then { g with board := setCell b2 to_row to_col 2 }
  else if piece == 3 && to_row == 7 then { g with board := setCell b2 to_row to_col 4 }
  else { g with board := b2 }

/-- Applies a move to the game board (game.c `apply_move`); delegates to
`apply_single_step`. -/
def apply_move (g : Game) (from_row from_col to_row to_col : Int) : Game :=
  apply_single_step g from_row from_col to_row to_col

/-- Switches turn to the other player (game.c `change_turn`):
if `current_turn` equals `player1` it becomes `player2`, else `player1`. -/
def change_turn (g : Game) : Game :=
  if g.current_turn = g.player1 then { g with current_turn := g.player2 }
  else { g with current_turn := g.player1 }

/-- Starting board configuration of `init_game` (game.c lines 17-26). -/
def initial_board : List (List Nat) :=
  [[3, 0, 3, 0, 3, 0, 3, 0],
   [0, 3, 0, 3, 0, 3, 0, 3],
   [3, 0, 3, 0, 3, 0, 3, 0],
   [0, 0, 0, 0, 0, 0, 0, 0],
   [0, 0, 0, 0, 0, 0, 0, 0],
   [0, 1, 0, 1, 0, 1, 0, 1],
   [1, 0, 1, 0, 1, 0, 1, 0],
   [0, 1, 0, 1, 0, 1, 0, 1]]

/-- Initializes a new checkers game (game.c `init_game`): player 1 plays
white, player 2 plays black, player 1 starts. -/
def init_game (p1 p2 : String) : Game :=
  { board := initial_board
    player1 := p1
    player2 := p2
    current_turn := p1
    player1_color := 1
    player2_color := 3
    game_active := true }

/-! ## Multi-move handling (server.c `handle_multi_move`, lines 1695-1722)

The validated/applied chain walks consecutive coordinate pairs
`path[i] -> path[i+1]`.  On the first failing `validate_move` the handler
sends `OP_INVALID_MOVE` and returns immediately; already-applied steps are
not rolled back and `change_turn` runs only after the whole chain
succeeded. -/

/-- The validation/application loop of `handle_multi_move`: processes the
list of consecutive (from, to) pairs; the `Bool` is true iff every step
validated (false models the `OP_INVALID_MOVE` + `return` path). -/
def multi_move_chain (g : Game) (player : String) :
    List ((Int × Int) × (Int × Int)) → Game × Bool
  | [] => (g, true)
  | (f, t) :: rest =>
    if validate_move g f.1 f.2 t.1 t.2 player then
      multi_move_chain (apply_move g f.1 f.2 t.1 t.2) player rest
    else (g, false)

/-- Core of `handle_multi_move` after parsing: run the chain over the
consecutive pairs of the path; on success `change_turn` runs, on failure
the game is left exactly as the loop left it. -/
def multi_move_core (g : Game) (player : String) (path : List (Int × Int)) :
    Game × Bool :=
  match multi_move_chain g player (path.zip path.tail) with
  | (g', true) => (change_turn g', true)
  | (g', false) => (g', false)

/-- Sequential application of a list of steps (no validation); used to
state what the board contains after a partially applied multi-move. -/
def apply_chain (g : Game) : List ((Int × Int) × (Int × Int)) → Game
  | [] => g
  | (f, t) :: rest => apply_chain (apply_move g f.1 f.2 t.1 t.2) rest

/-- Sequential validity of a list of steps: each step validates on the
board produced by applying the preceding ones. -/
def chain_valid (g : Game) (player : String) :
    List ((Int × Int) × (Int × Int)) → Bool
  | [] => true
  | (f, t) :: rest =>
    validate_move g f.1 f.2 t.1 t.2 player &&
    chain_valid (apply_move g f.1 f.2 t.1 t.2) player rest

/-! ## Rooms and sessions (src/Server/server.h, server.c)

The registries are fixed-size arrays scanned front to back; they are
modelled as lists of slots in array order.  Pointer mutation through
`find_client`/`find_room` results becomes update-in-place of the first
matching slot.  Mutex operations, logging, and the `client_count` /
`room_count` bookkeeping counters (read by nothing the claims touch) are
not represented.  Messages written to sockets are collected as
(socket, opcode, payload) triples. -/

/-- Room states (game.h, enum `RoomState`). -/
inductive RoomState where
  | WAITING
  | ACTIVE
  | PAUSED
  | FINISHED
deriving DecidableEq, Repr

/-- Client connection structure (server.h, struct `Client`); the fields the
modelled operations read or write. -/
structure ClientC where
  socket : Int
  client_id : String
  active : Bool
  logged_in : Bool
  current_room : String
  state : ClientState
  game_state : ClientGameState
  disconnect_time : Int
  missed_pongs : Nat
deriving DecidableEq, Repr

/-- Room structure (game.h, struct `Room`); field order as in the source. -/
structure RoomC where
  name : String
  owner : String
  player1 : String
  player2 : String
  players_count : Int
  game : Game
  game_started : Bool
  state : RoomState
  pause_start_time : Int
  disconnected_player : String
  waiting_for_reconnect : Bool
deriving DecidableEq, Repr

/-- A `Game` struct after `memset(0)`: all cells 0, empty strings, colors 0. -/
def zeroGame : Game :=
  { board := List.replicate 8 (List.replicate 8 0)
    player1 := ""
    player2 := ""
    current_turn := ""
    player1_color := 0
    player2_color := 0
    game_active := false }

/-- A `Room` struct after `memset(room, 0, sizeof(Room))` (the room
destruction in `leave_room` / `cleanup_finished_game`): every field zero;
enum value 0 is `ROOM_STATE_WAITING`. -/
def zeroRoom : RoomC :=
  { name := ""
    owner := ""
    player1 := ""
    player2 := ""
    players_count := 0
    game := zeroGame
    game_started := false
    state := .WAITING
    pause_start_time := 0
    disconnected_player := ""
    waiting_for_reconnect := false }

/-- A message written to a socket: (socket, opcode, payload). -/
def Msg := Int × OpCode × String
deriving instance DecidableEq for Msg

/-- The occupancy test both `find_room` and the duplicate check of
`create_room` use: `players_count > 0 || strlen(owner) > 0`. -/
def room_occupied (r : RoomC) : Bool :=
  0 < r.players_count || r.owner != ""

/-- The free-slot test of `create_room`:
`players_count == 0 && strlen(owner) == 0`. -/
def room_slot_free (r : RoomC) : Bool :=
  r.players_count == 0 && r.owner == ""

/-- Finds a room by name (server.c `find_room`, lines 1198-1206): first
slot that is occupied and has the requested name. -/
def find_room : List RoomC → String → Option RoomC
  | [], _ => none
  | r :: rs, name =>
    if room_occupied r && r.name == name then some r else find_room rs name

/-- Finds a client by ID (server.c `find_client`, lines 1137-1145): first
active slot whose `client_id` matches. -/
def find_client : List ClientC → String → Option ClientC
  | [], _ => none
  | c :: cs, id =>
    if c.active && c.client_id == id then some c else find_client cs id

/-- In-place mutation through the pointer `find_client` returned: the first
active slot with the given id is replaced by `f` of it. -/
def update_first_client (cs : List ClientC) (id : String) (f : ClientC → ClientC) :
    List ClientC :=
  match cs with
  | [] => []
  | c :: rest =>
    if c.active && c.client_id == id then f c :: rest
    else c :: update_first_client rest id f

/-- Allocation pass of `create_room` (server.c lines 1168-1184): take the
first free slot, fill in name/owner, clear the seats, zero the count, and
run `room_init_state`; the stale `game` field of the slot is NOT reset. -/
def create_room_alloc : List RoomC → String → String → Option (RoomC × List RoomC)
  | [], _, _ => none
  | r :: rs, room_name, creator =>
    if room_slot_free r then
      let r' := { r with
        name := room_name
        owner := creator
        player1 := ""
        player2 := ""
        players_count := 0
        game_started := false
        state := .WAITING
        pause_start_time := 0
        disconnected_player := ""
        waiting_for_reconnect := false }
      some (r', r' :: rs)
    else
      match create_room_alloc rs room_name creator with
      | none => none
      | some (nr, rs') => some (nr, r :: rs')

/-- Creates a new game room (server.c `create_room`, lines 1155-1188):
fail if an occupied slot already carries the name, else allocate the first
free slot.  Returns the created room's value (the C function returns a
pointer to it) and the updated registry. -/
def create_room (rooms : List RoomC) (room_name creator : String) :
    Option (RoomC × List RoomC) :=
  if rooms.any (fun r => room_occupied r && r.name == room_name) then none
  else create_room_alloc rooms room_name creator

/-- Result of `handle_create_room`: the (unchanged) client, the room
registry, the created room if any, and the reply sent to the client. -/
structure CreateRoomResult where
  client : ClientC
  rooms : List RoomC
  created : Option RoomC
  reply : OpCode × String
deriving DecidableEq

/-- Handles a room creation request (server.c `handle_create_room`, lines
1455-1479), after the `sscanf` of the payload into
`player_name, room_name`: reject when not logged in, else try
`create_room`; the client structure itself is never written (no
`transition_client_state`, no `current_room` update). -/
def handle_create_room (client : ClientC) (rooms : List RoomC)
    (player_name room_name : String) : CreateRoomResult :=
  if !client.logged_in then
    ⟨client, rooms, none, (.OP_ROOM_FAIL, "Not logged in")⟩
  else
    match create_room rooms room_name player_name with
    | none => ⟨client, rooms, none, (.OP_ROOM_FAIL, "Room already exists or server full")⟩
    | some (r, rooms') => ⟨client, rooms', some r, (.OP_ROOM_CREATED, room_name)⟩

/-- The notify-the-remaining-player block of `leave_room` (server.c lines
1345-1359): look the other player up, and if found clear its
`current_room`, send it `OP_ROOM_LEFT "room,player"`, and transition it to
the lobby. -/
def notify_leave (cs : List ClientC) (other_id room_name player_name : String) :
    List ClientC × List Msg :=
  match find_client cs other_id with
  | none => (cs, [])
  | some oc =>
    (update_first_client cs other_id
       (fun c => { c with current_room := "", game_state := .IN_LOBBY }),
     [(oc.socket, .OP_ROOM_LEFT, room_name ++ "," ++ player_name)])

/-- Removes a player from a room on explicit leave (server.c `leave_room`,
lines 1325-1368).  Acts on the first occupied slot carrying the name (the
room `find_room` would return); when no room matches, nothing changes.
`players_count` is decremented; if it reaches 0 the room is destroyed
outright, otherwise the remaining player — `player1` when it is not the
leaver, else `player2` if nonempty — is notified and the room is destroyed
anyway (`memset` to zero). -/
def leave_room : List RoomC → List ClientC → String → String →
    List RoomC × List ClientC × List Msg
  | [], cs, _, _ => ([], cs, [])
  | r :: rs, cs, room_name, player_name =>
    if room_occupied r && r.name == room_name then
      if r.players_count - 1 = 0 then (zeroRoom :: rs, cs, [])
      else if r.player1 != player_name then
        (zeroRoom :: rs, (notify_leave cs r.player1 room_name player_name).1,
         (notify_leave cs r.player1 room_name player_name).2)
      else if r.player2 != "" then
        (zeroRoom :: rs, (notify_leave cs r.player2 room_name player_name).1,
         (notify_leave cs r.player2 room_name player_name).2)
      else (zeroRoom :: rs, cs, [])
    else
      let res := leave_room rs cs room_name player_name
      (r :: res.1, res.2.1, res.2.2)

/-- The member `leave_room` notifies, as a function of the room and the
leaver (used to state claim C6): `player1` when the leaver is not
`player1`, else `player2`. -/
def leave_other (r : RoomC) (player_name : String) : String :=
  if r.player1 = player_name then r.player2 else r.player1

/-! ## Reconnection (server.c `handle_reconnect_request`, lines 692-785)

The claim-relevant portion runs from the `find_client` lookup through the
socket hand-over and the invalidation of the temporary client slot (the
state replay that follows the hand-over is outside the modelled region).
The temporary client the new connection arrived on occupies its own slot;
it is modelled as a separate value. -/

/-- The hand-over writes applied to the preserved session, in source
order: `state = RECONNECTING`, `disconnect_time = 0`, socket adoption,
`active = true`, `logged_in = true`, then `client_mark_reconnected`
(state `CONNECTED`, `disconnect_time = 0`, `missed_pongs = 0`). -/
def handover_writes (tempSock : Int) (c : ClientC) : ClientC :=
  { c with
    state := .CONNECTED
    disconnect_time := 0
    socket := tempSock
    active := true
    logged_in := true
    missed_pongs := 0 }

/-- Invalidation of the temporary client slot after a successful hand-over
(server.c lines 776-780). -/
def invalidate_temp (temp : ClientC) : ClientC :=
  { temp with active := false, logged_in := false, client_id := "", socket := -1 }

/-- Result of the validation/hand-over portion of
`handle_reconnect_request`. -/
structure ReconnectOutcome where
  handed_over : Bool
  clients : List ClientC
  temp : ClientC
  reply : Option Msg
deriving DecidableEq

/-- Validation and hand-over of `handle_reconnect_request` (server.c lines
716-785): locate the session by player name; `CLIENT_STATE_REMOVED` fails
with "Client was removed"; any state other than `DISCONNECTED`/`TIMEOUT`
fails with "Cannot reconnect from state: ..."; otherwise the socket is
handed over to the preserved session and the temporary slot is
invalidated. -/
def handle_reconnect_validate (cs : List ClientC) (temp : ClientC)
    (player : String) : ReconnectOutcome :=
  match find_client cs player with
  | none => ⟨false, cs, temp, some (temp.socket, .OP_RECONNECT_FAIL, "Client not found")⟩
  | some old =>
    if old.state = .REMOVED then
      ⟨false, cs, temp, some (temp.socket, .OP_RECONNECT_FAIL, "Client was removed")⟩
    else if old.state ≠ .DISCONNECTED && old.state ≠ .TIMEOUT then
      ⟨false, cs, temp, some (temp.socket, .OP_RECONNECT_FAIL,
        "Cannot reconnect from state: " ++ client_get_state_string old.state)⟩
    else
      ⟨true, update_first_client cs player (handover_writes temp.socket),
       invalidate_temp temp, none⟩

/-! # Theorems -/

/-! ## C1: dispatch iff whitelisted -/

/-- The acceptance decision of `validate_operation` is exactly
`is_operation_allowed`. -/
lemma validate_operation_fst (state : ClientGameState) (v : Nat) (op : OpCode) :
    (validate_operation state v op).1 = is_operation_allowed state op := by
  by_cases hall : is_operation_allowed state op
  · simp [validate_operation, hall]
  · simp [validate_operation, hall]
    split <;> rfl

/-- C1: for every session state and every opcode, the server dispatches an
inbound opcode (i.e. `validate_operation` lets the dispatch switch run,
which it does exactly when `is_operation_allowed` accepts) if and only if
the opcode is in that state's whitelist of section 4.2 of the
specification (`spec_allowed_ops`, which in particular gives NotLoggedIn
exactly {Login, Ping, Pong, ReconnectRequest, Error} and includes JoinRoom
for InRoomWaiting). -/
theorem dispatched_iff_whitelisted :
    ∀ (state : ClientGameState) (v : Nat) (op : OpCode),
      (validate_operation state v op).1 = true ↔ op ∈ spec_allowed_ops state := by
  intro state v op
  rw [validate_operation_fst]
  revert state op
  decide

/-! ## C5: first whitelist rejection disconnects -/

/-- C5: in every session state and for every violation-counter value (in
particular the initial 0, i.e. the first rejection), an operation rejected
by the whitelist increments `unknown_opcode_count` and, because
`MAX_VIOLATIONS = 1`, takes the `disconnect_malicious_client` path: the
result action is `disconnected`, never the warning-only branch. -/
theorem whitelist_rejection_disconnects
    (state : ClientGameState) (v : Nat) (op : OpCode)
    (h : is_operation_allowed state op = false) :
    validate_operation state v op = (false, v + 1, .disconnected) := by
  have h1 : MAX_VIOLATIONS ≤ v + 1 := by unfold MAX_VIOLATIONS; omega
  simp [validate_operation, h, h1]

/-- Witness for C5: a logged-in lobby client sending Move is rejected and
disconnected on the spot with the counter at 1. -/
theorem whitelist_rejection_disconnects_witness :
    is_operation_allowed .IN_LOBBY .OP_MOVE = false ∧
    validate_operation .IN_LOBBY 0 .OP_MOVE = (false, 1, .disconnected) :=
  ⟨by decide, whitelist_rejection_disconnects .IN_LOBBY 0 .OP_MOVE (by decide)⟩

/-! ## C10: change_turn twice -/

/-- Counterexample to C10 as stated: `change_turn` flips between `player1`
and `player2` only; on a `Game` whose `current_turn` is neither player
("c" here, players "a"/"b"), applying it twice yields `current_turn = "b"`,
not the original game. -/
theorem change_turn_twice_cex :
    change_turn (change_turn (⟨initial_board, "a", "b", "c", 1, 3, true⟩ : Game)) ≠
      (⟨initial_board, "a", "b", "c", 1, 3, true⟩ : Game) := by decide

/-- C10 (amended): for every game whose `current_turn` is one of its two
players — which `init_game` establishes and `change_turn` preserves —
applying `change_turn` twice restores the game exactly (all fields,
including `current_turn`). -/
theorem change_turn_involutive (g : Game)
    (h : g.current_turn = g.player1 ∨ g.current_turn = g.player2) :
    change_turn (change_turn g) = g := by
  obtain ⟨b, p1, p2, ct, c1, c2, ga⟩ := g
  by_cases hc : ct = p1
  · subst hc
    by_cases h2 : p2 = ct <;> simp [change_turn, h2]
  · have h' : ct = p2 := by
      rcases h with h | h
      · exact absurd h hc
      · exact h
    subst h'
    simp [change_turn, hc]

/-- Witness for C10 (amended): a freshly initialized game ("a" vs "b",
turn "a") returns to itself after two turn changes. -/
theorem change_turn_involutive_witness :
    ((init_game "a" "b").current_turn = (init_game "a" "b").player1 ∨
     (init_game "a" "b").current_turn = (init_game "a" "b").player2) ∧
    change_turn (change_turn (init_game "a" "b")) = init_game "a" "b" :=
  ⟨Or.inl rfl, change_turn_involutive (init_game "a" "b") (Or.inl rfl)⟩

/-! ## C3: declared LEN is not checked against the payload -/

/-- Counterexample to C3 as stated: the frame `DENTCP|01|0003|ab` declares
LEN 3 but carries 2 payload bytes; `parse_message` accepts it (recording
the declared 3 in `len`) instead of rejecting with `DATA_MISMATCH`. -/
theorem parse_len_mismatch_accepted_cex :
    parse_message ("DENTCP|01|0003|ab".data) = .ok ⟨1, 3, ['a', 'b']⟩ ∧
    (['a', 'b'] : List Char).length ≠ 3 := by decide

/-- C3 (amended): `parse_message` never rejects a frame with the
`DATA_MISMATCH` reason — the declared LEN field is parsed and range-checked
but not compared with the actual payload length, so mismatched frames are
accepted when otherwise well-formed. -/
theorem parse_message_no_data_mismatch (buffer : List Char) :
    parse_message buffer ≠ .error .DATA_MISMATCH := by
  unfold parse_message
  dsimp only
  (repeat' split) <;> simp

/-- Witness for C3 (amended), at the concrete mismatched frame of the
counterexample. -/
theorem parse_message_no_data_mismatch_witness :
    parse_message ("DENTCP|01|0003|ab".data) ≠ .error .DATA_MISMATCH :=
  parse_message_no_data_mismatch ("DENTCP|01|0003|ab".data)

/-! ## Codec lemmas shared by C2 and C4 -/

lemma take_pfx (rest : List Char) : (PFX ++ rest).take PFX_LEN = PFX := rfl

lemma drop_pfx (rest : List Char) : (PFX ++ rest).drop PFX_LEN = rest := rfl

lemma takeWhile_append_cons {p : Char → Bool} {l : List Char} {b : Char} (t : List Char)
    (hl : ∀ c ∈ l, p c = true) (hb : p b = false) :
    (l ++ b :: t).takeWhile p = l := by
  induction l with
  | nil => simp [List.takeWhile_cons, hb]
  | cons a l ih =>
    have ha := hl a (by simp)
    simp [List.takeWhile_cons, ha, ih (fun c hc => hl c (by simp [hc]))]

lemma dropWhile_append_cons {p : Char → Bool} {l : List Char} {b : Char} (t : List Char)
    (hl : ∀ c ∈ l, p c = true) (hb : p b = false) :
    (l ++ b :: t).dropWhile p = b :: t := by
  induction l with
  | nil => simp [List.dropWhile_cons, hb]
  | cons a l ih =>
    have ha := hl a (by simp)
    simp [List.dropWhile_cons, ha, ih (fun c hc => hl c (by simp [hc]))]

lemma c_isdigit_ne {c x : Char} (h : c_isdigit c = true) (hx : c_isdigit x = false) :
    (c != x) = true := by
  rw [bne_iff_ne]
  intro hc
  subst hc
  simp [h] at hx

lemma digitChar_isdigit {d : Nat} (h : d < 10) : c_isdigit (Nat.digitChar d) = true := by
  interval_cases d <;> decide

lemma digitChar_toNat {d : Nat} (h : d < 10) : (Nat.digitChar d).toNat = 48 + d := by
  interval_cases d <;> decide

lemma natDigitsAux_fuel_irrel : ∀ (n f1 f2 : Nat), n < f1 → n < f2 →
    natDigitsAux f1 n = natDigitsAux f2 n := by
  intro n
  induction n using Nat.strong_induction_on with
  | _ n ih =>
    intro f1 f2 h1 h2
    cases f1 with
    | zero => omega
    | succ f1 =>
      cases f2 with
      | zero => omega
      | succ f2 =>
        simp only [natDigitsAux]
        by_cases h10 : n < 10
        · simp [h10]
        · have hdiv : n / 10 < n := Nat.div_lt_self (by omega) (by omega)
          simp only [if_neg h10]
          rw [ih (n / 10) hdiv f1 f2 (by omega) (by omega)]

/-- Unfolding equation for `natDigits` with the fuel eliminated. -/
lemma natDigits_eq (n : Nat) :
    natDigits n = if n < 10 then [Nat.digitChar n]
                  else natDigits (n / 10) ++ [Nat.digitChar (n % 10)] := by
  unfold natDigits
  by_cases h10 : n < 10
  · simp only [natDigitsAux, if_pos h10]
  · simp only [natDigitsAux, if_neg h10]
    congr 1
    exact natDigitsAux_fuel_irrel (n / 10) n (n / 10 + 1)
      (Nat.div_lt_self (by omega) (by omega)) (by omega)

lemma natDigits_all_digits (n : Nat) : ∀ c ∈ natDigits n, c_isdigit c = true := by
  induction n using Nat.strong_induction_on with
  | _ n ih =>
    rw [natDigits_eq]
    by_cases h10 : n < 10
    · simp only [if_pos h10, List.mem_singleton]
      intro c hc
      subst hc
      exact digitChar_isdigit h10
    · simp only [if_neg h10, List.mem_append, List.mem_singleton]
      intro c hc
      rcases hc with hc | hc
      · exact ih (n / 10) (Nat.div_lt_self (by omega) (by omega)) c hc
      · subst hc
        exact digitChar_isdigit (Nat.mod_lt n (by omega))

lemma natDigits_ne_nil (n : Nat) : natDigits n ≠ [] := by
  rw [natDigits_eq]
  by_cases h10 : n < 10 <;> simp [h10]

lemma natDigits_length_le : ∀ (n k : Nat), 1 ≤ k → n < 10 ^ k →
    (natDigits n).length ≤ k := by
  intro n
  induction n using Nat.strong_induction_on with
  | _ n ih =>
    intro k hk hn
    rw [natDigits_eq]
    by_cases h10 : n < 10
    · simpa [h10] using hk
    · rw [if_neg h10, List.length_append]
      have hk2 : 2 ≤ k := by
        rcases Nat.lt_or_ge k 2 with hlt | hge
        · have : k = 1 := by omega
          subst this
          rw [pow_one] at hn
          omega
        · exact hge
      have hpow : 10 ^ k = 10 ^ (k - 1) * 10 := by
        conv_lhs => rw [show k = (k - 1) + 1 by omega]
        rw [pow_succ]
      have hdiv : n / 10 < 10 ^ (k - 1) := by
        rw [hpow] at hn
        omega
      have := ih (n / 10) (Nat.div_lt_self (by omega) (by omega)) (k - 1) (by omega) hdiv
      simp only [List.length_singleton]
      omega

lemma atoiNat_nil : atoiNat [] = 0 := rfl

lemma atoiNat_cons_zero (l : List Char) : atoiNat ('0' :: l) = atoiNat l := rfl

lemma atoiNat_replicate_zeros (k : Nat) (l : List Char) :
    atoiNat (List.replicate k '0' ++ l) = atoiNat l := by
  induction k with
  | zero => simp
  | succ k ih => rw [List.replicate_succ, List.cons_append, atoiNat_cons_zero, ih]

lemma atoiNat_snoc (l : List Char) (c : Char) :
    atoiNat (l ++ [c]) = 10 * atoiNat l + (c.toNat - 48) := by
  simp [atoiNat, List.foldl_append]

lemma atoiNat_natDigits (n : Nat) : atoiNat (natDigits n) = n := by
  induction n using Nat.strong_induction_on with
  | _ n ih =>
    rw [natDigits_eq]
    by_cases h10 : n < 10
    · rw [if_pos h10,
        show ([Nat.digitChar n] : List Char) = [] ++ [Nat.digitChar n] from rfl,
        atoiNat_snoc, atoiNat_nil, digitChar_toNat h10]
      omega
    · rw [if_neg h10, atoiNat_snoc,
        ih (n / 10) (Nat.div_lt_self (by omega) (by omega)),
        digitChar_toNat (Nat.mod_lt n (by omega))]
      omega

lemma atoiNat_padZeros (w : Nat) (l : List Char) :
    atoiNat (padZeros w l) = atoiNat l :=
  atoiNat_replicate_zeros _ _

lemma padZeros_length (w : Nat) (l : List Char) :
    (padZeros w l).length = max w l.length := by
  simp only [padZeros, List.length_append, List.length_replicate]
  omega

lemma padZeros_all_digits (w : Nat) {l : List Char}
    (h : ∀ c ∈ l, c_isdigit c = true) : ∀ c ∈ padZeros w l, c_isdigit c = true := by
  intro c hc
  rw [padZeros, List.mem_append] at hc
  rcases hc with hc | hc
  · rw [List.eq_of_mem_replicate hc]
    decide
  · exact h c hc

/-- Acceptance behavior of `parse_message` on a structurally well-formed
frame: digit fields of 1 to 15 characters whose denoted values pass the
opcode and length range checks, and a payload within `MAX_DATA_LEN - 1`
bytes, parse into exactly the denoted opcode, the denoted length, and the
payload. -/
lemma parse_message_fields
    (opf lenf data : List Char)
    (hod : ∀ c ∈ opf, c_isdigit c = true) (ho1 : opf ≠ []) (ho15 : opf.length < 16)
    (hov : is_valid_opcode (atoiNat opf) = true)
    (hld : ∀ c ∈ lenf, c_isdigit c = true) (hl1 : lenf ≠ []) (hl15 : lenf.length < 16)
    (hlv : atoiNat lenf ≤ MAX_DATA_LEN - 1)
    (hd : data.length ≤ MAX_DATA_LEN - 1) :
    parse_message (PFX ++ '|' :: (opf ++ '|' :: (lenf ++ '|' :: data))) =
      .ok ⟨atoiNat opf, atoiNat lenf, data⟩ := by
  have hop_ne : ∀ c ∈ opf, ((fun c => c != '|') c) = true :=
    fun c hc => c_isdigit_ne (hod c hc) (by decide)
  have hlen_ne : ∀ c ∈ lenf, ((fun c => c != '|') c) = true :=
    fun c hc => c_isdigit_ne (hld c hc) (by decide)
  have hpipe : ((fun c => c != '|') '|') = false := by decide
  have ho0 : 0 < opf.length := List.length_pos.mpr ho1
  have hl0 : 0 < lenf.length := List.length_pos.mpr hl1
  have honum : is_numeric_string opf = true := by
    simp only [is_numeric_string, Bool.and_eq_true, decide_eq_true_eq, List.all_eq_true]
    exact ⟨ho0, hod⟩
  have hlnum : is_numeric_string lenf = true := by
    simp only [is_numeric_string, Bool.and_eq_true, decide_eq_true_eq, List.all_eq_true]
    exact ⟨hl0, hld⟩
  have hniceop : ¬ (opf.length = 0 ∨ 16 ≤ opf.length) := by omega
  have hnicelen : ¬ (lenf.length = 0 ∨ 16 ≤ lenf.length) := by omega
  have hlenval : ¬ (MAX_DATA_LEN - 1 < atoiNat lenf) := by omega
  have hdataval : ¬ (MAX_DATA_LEN - 1 < data.length) := by omega
  unfold parse_message
  rw [take_pfx, drop_pfx, if_neg (by simp)]
  try dsimp only
  rw [if_neg (by simp)]
  try dsimp only
  rw [takeWhile_append_cons (lenf ++ '|' :: data) hop_ne hpipe,
      dropWhile_append_cons (lenf ++ '|' :: data) hop_ne hpipe]
  try dsimp only
  rw [takeWhile_append_cons data hlen_ne hpipe,
      dropWhile_append_cons data hlen_ne hpipe]
  try dsimp only
  simp [honum, hlnum, hov, hniceop, hnicelen, hlenval, hdataval]
  rw [if_neg (not_or.mpr ⟨ho1, by omega⟩), if_neg (not_or.mpr ⟨hl1, by omega⟩)]

/-! ## C4: decoder accepts any digit width in OP and LEN -/

/-- Counterexample to C4 as stated: an otherwise well-formed frame whose OP
field has 16 digits denoting the valid opcode 1 is rejected with
`INVALID_FORMAT` (the parser bounds both numeric fields by the size of its
16-byte scratch buffer), so "any number of decimal digits" does not hold. -/
theorem parse_op_digits_cex :
    parse_message ("DENTCP|0000000000000001|0001|x".data) = .error .INVALID_FORMAT ∧
    atoiNat ("0000000000000001".data) = 1 ∧
    is_valid_opcode 1 = true := by decide

/-- C4 (amended): for every otherwise well-formed frame, the decoder
accepts OP and LEN fields of any width from 1 to 15 digits (not only the
emitter's `%02d`/`%04d` widths), provided the digits denote an opcode in
the valid set and a length within range; the parsed message carries the
denoted values. -/
theorem parse_accepts_any_digit_width
    (opf lenf data : List Char)
    (hod : ∀ c ∈ opf, c_isdigit c = true) (ho1 : opf ≠ []) (ho15 : opf.length ≤ 15)
    (hov : is_valid_opcode (atoiNat opf) = true)
    (hld : ∀ c ∈ lenf, c_isdigit c = true) (hl1 : lenf ≠ []) (hl15 : lenf.length ≤ 15)
    (hlv : atoiNat lenf ≤ MAX_DATA_LEN - 1)
    (hd : data.length ≤ MAX_DATA_LEN - 1) :
    parse_message (PFX ++ '|' :: (opf ++ '|' :: (lenf ++ '|' :: data))) =
      .ok ⟨atoiNat opf, atoiNat lenf, data⟩ :=
  parse_message_fields opf lenf data hod ho1 (by omega) hov hld hl1 (by omega) hlv hd

/-- Witness for C4 (amended): a 3-digit OP field `001` and a 1-digit LEN
field `2` are accepted and denote opcode 1 and length 2. -/
theorem parse_accepts_any_digit_width_witness :
    parse_message (PFX ++ '|' :: ((['0', '0', '1'] : List Char) ++
        '|' :: ((['2'] : List Char) ++ '|' :: ['a', 'b']))) =
      .ok ⟨atoiNat ['0', '0', '1'], atoiNat ['2'], ['a', 'b']⟩ ∧
    atoiNat ['0', '0', '1'] = 1 ∧ atoiNat ['2'] = 2 :=
  ⟨parse_accepts_any_digit_width ['0', '0', '1'] ['2'] ['a', 'b']
      (by decide) (by decide) (by decide) (by decide) (by decide) (by decide)
      (by decide) (by decide) (by decide),
   by decide, by decide⟩

/-! ## C2: encode/decode round trip -/

/-- Shape and length bound of a successfully created message. -/
lemma create_message_eq_some (op : Nat) (data : List Char) (s : List Char)
    (h : create_message op data = some s) :
    s = PFX ++ '|' :: (padZeros 2 (natDigits op) ++
        '|' :: (padZeros 4 (natDigits data.length) ++ '|' :: (data ++ ['\n']))) ∧
    s.length < MAX_MESSAGE_LEN := by
  unfold create_message at h
  dsimp only at h
  split at h
  · exact absurd h (by simp)
  · rename_i hlt
    cases h
    exact ⟨rfl, by omega⟩

/-- Counterexample to C2 as stated: for opcode 1 and a newline-free payload
of 8176 bytes — within `MaxData = 8179` — `create_message` itself fails
(returns -1), because the full frame `6+1+2+1+4+1+8176+1 = 8192` bytes does
not fit in the `MAX_MESSAGE_LEN` buffer, so encoding produces no frame to
decode. -/
theorem create_message_fails_within_max_data :
    is_valid_opcode 1 = true ∧
    ('\n' ∉ List.replicate 8176 'a') ∧
    (List.replicate 8176 'a').length ≤ MAX_DATA_LEN ∧
    create_message 1 (List.replicate 8176 'a') = none := by
  refine ⟨by decide, ?_, ?_, ?_⟩
  · intro h
    exact absurd (List.eq_of_mem_replicate h) (by decide)
  · rw [List.length_replicate]
    decide
  · rcases hcm : create_message 1 (List.replicate 8176 'a') with _ | s
    · rfl
    · exfalso
      obtain ⟨hs, hlen⟩ := create_message_eq_some _ _ _ hcm
      have h1 : (padZeros 2 (natDigits 1)).length = 2 := by
        rw [padZeros_length]
        exact max_eq_left (le_trans (natDigits_length_le 1 1 (by omega) (by omega))
          (by omega))
      have h4 : (padZeros 4 (natDigits (8176 : Nat))).length = 4 := by
        rw [padZeros_length]
        exact max_eq_left (natDigits_length_le 8176 4 (by omega) (by norm_num))
      rw [hs] at hlen
      have hM : MAX_MESSAGE_LEN = 8192 := rfl
      have hP : PFX.length = 6 := rfl
      simp only [List.length_append, List.length_cons, List.length_nil,
        List.length_replicate, h1, h4, hP, hM] at hlen
      omega

/-- C2 (amended): for every opcode in the protocol's valid set and every
newline-free payload for which `create_message` succeeds (the emitted frame
fits `MaxMessage`, i.e. `|data|` up to `MaxData - 4` for two-digit opcodes
and `MaxData - 5` for opcode 500), decoding the produced bytes succeeds and
yields exactly the opcode and the payload (with the payload's length in the
LEN slot). -/
theorem create_parse_roundtrip (op : Nat) (data : List Char) (s : List Char)
    (hop : is_valid_opcode op = true)
    (hnl : '\n' ∉ data)
    (henc : create_message op data = some s) :
    decode s = some (.ok ⟨op, data.length, data⟩) := by
  obtain ⟨hs, hlen⟩ := create_message_eq_some op data s henc
  set opf := padZeros 2 (natDigits op) with hopf
  set lenf := padZeros 4 (natDigits data.length) with hlenf
  clear_value opf lenf
  have hod : ∀ c ∈ opf, c_isdigit c = true := by
    rw [hopf]
    exact padZeros_all_digits 2 (natDigits_all_digits op)
  have hld : ∀ c ∈ lenf, c_isdigit c = true := by
    rw [hlenf]
    exact padZeros_all_digits 4 (natDigits_all_digits data.length)
  have hoplen : opf.length = max 2 (natDigits op).length := by
    rw [hopf]
    exact padZeros_length _ _
  have hlenlen : lenf.length = max 4 (natDigits data.length).length := by
    rw [hlenf]
    exact padZeros_length _ _
  have hople : 2 ≤ opf.length := by
    rw [hoplen]
    exact Nat.le_max_left _ _
  have hlenge : 4 ≤ lenf.length := by
    rw [hlenlen]
    exact Nat.le_max_left _ _
  have ho1 : opf ≠ [] := by
    intro h
    rw [h] at hople
    simp at hople
  have hl1 : lenf ≠ [] := by
    intro h
    rw [h] at hlenge
    simp at hlenge
  have hop1000 : op < 1000 := by
    simp only [is_valid_opcode, Bool.or_eq_true, Bool.and_eq_true,
      decide_eq_true_eq, beq_iff_eq] at hop
    omega
  have hopd3 : (natDigits op).length ≤ 3 := natDigits_length_le op 3 (by omega) (by omega)
  have hoplt : opf.length ≤ 3 := by
    rw [hoplen]
    exact max_le (by omega) hopd3
  have ho15 : opf.length < 16 := by omega
  have hM : MAX_MESSAGE_LEN = 8192 := rfl
  have hD : MAX_DATA_LEN = 8179 := rfl
  have hP : PFX.length = 6 := rfl
  have hslen : s.length = 6 + 1 + opf.length + 1 + lenf.length + 1 + (data.length + 1) := by
    rw [hs]
    simp only [List.length_append, List.length_cons, List.length_nil]
    omega
  have hdata : data.length ≤ MAX_DATA_LEN - 1 := by omega
  have hd4 : (natDigits data.length).length ≤ 4 :=
    natDigits_length_le data.length 4 (by omega) (by omega)
  have hlenle : lenf.length ≤ 4 := by
    rw [hlenlen]
    exact max_le (by omega) hd4
  have hl15 : lenf.length < 16 := by omega
  have hatoio : atoiNat opf = op := by
    rw [hopf, atoiNat_padZeros, atoiNat_natDigits]
  have hatoil : atoiNat lenf = data.length := by
    rw [hlenf, atoiNat_padZeros, atoiNat_natDigits]
  have hov : is_valid_opcode (atoiNat opf) = true := by rw [hatoio]; exact hop
  have hlv : atoiNat lenf ≤ MAX_DATA_LEN - 1 := by rw [hatoil]; exact hdata
  have hline : s = (PFX ++ '|' :: (opf ++ '|' :: (lenf ++ '|' :: data))) ++ '\n' :: [] := by
    rw [hs]
    simp [List.append_assoc]
  have hmem : '\n' ∈ s := by
    rw [hline]
    simp
  have hnl_all : ∀ c ∈ PFX ++ '|' :: (opf ++ '|' :: (lenf ++ '|' :: data)),
      ((fun c => c != '\n') c) = true := by
    intro c hc
    rw [bne_iff_ne]
    simp only [List.mem_append, List.mem_cons] at hc
    rcases hc with hc | hc | hc | hc | hc | hc | hc
    · revert hc
      simp only [PFX, List.mem_cons, List.not_mem_nil, or_false]
      rintro (rfl | rfl | rfl | rfl | rfl | rfl) <;> decide
    · subst hc; decide
    · intro he; subst he; exact absurd (hod _ hc) (by decide)
    · subst hc; decide
    · intro he; subst he; exact absurd (hld _ hc) (by decide)
    · subst hc; decide
    · intro he; subst he; exact hnl hc
  have hextract : extract_line s =
      some (PFX ++ '|' :: (opf ++ '|' :: (lenf ++ '|' :: data))) := by
    unfold extract_line
    rw [if_pos hmem, hline, takeWhile_append_cons [] hnl_all (by decide)]
  unfold decode
  rw [hextract]
  simp only [Option.map_some']
  rw [parse_message_fields opf lenf data hod ho1 ho15 hov hld hl1 hl15 hlv hdata,
    hatoio, hatoil]

/-- Witness for C2 (amended): opcode 1 with payload `ab` encodes to
`DENTCP|01|0002|ab\n` and decodes back to (1, `ab`). -/
theorem create_parse_roundtrip_witness :
    is_valid_opcode 1 = true ∧
    ('\n' ∉ (['a', 'b'] : List Char)) ∧
    create_message 1 ['a', 'b'] = some ("DENTCP|01|0002|ab\n".data) ∧
    decode ("DENTCP|01|0002|ab\n".data) = some (.ok ⟨1, 2, ['a', 'b']⟩) := by
  refine ⟨by decide, by decide, by decide, ?_⟩
  have h := create_parse_roundtrip 1 ['a', 'b'] ("DENTCP|01|0002|ab\n".data)
    (by decide) (by decide) (by decide)
  simpa using h

/-! ## C8: CreateRoom does not auto-join the creator -/

/-- The room written by the allocation pass of `create_room`: count 0, both
seats empty, owner = creator, name as requested. -/
lemma create_room_alloc_created :
    ∀ (rooms : List RoomC) (room_name creator : String) (r : RoomC) (rs' : List RoomC),
      create_room_alloc rooms room_name creator = some (r, rs') →
      r.players_count = 0 ∧ r.player1 = "" ∧ r.player2 = "" ∧
      r.owner = creator ∧ r.name = room_name := by
  intro rooms
  induction rooms with
  | nil =>
    intro room_name creator r rs' h
    simp [create_room_alloc] at h
  | cons r0 rest ih =>
    intro room_name creator r rs' h
    unfold create_room_alloc at h
    by_cases hfree : room_slot_free r0
    · rw [if_pos hfree] at h
      simp only [Option.some.injEq, Prod.mk.injEq] at h
      obtain ⟨h1, _⟩ := h
      subst h1
      exact ⟨rfl, rfl, rfl, rfl, rfl⟩
    · rw [if_neg hfree] at h
      rcases hrec : create_room_alloc rest room_name creator with _ | ⟨nr, rs2⟩
      · rw [hrec] at h
        simp at h
      · rw [hrec] at h
        simp only [Option.some.injEq, Prod.mk.injEq] at h
        obtain ⟨h1, _⟩ := h
        subst h1
        exact ih room_name creator nr rs2 hrec

/-- C8: after every successful CreateRoom, the new room has
`players_count = 0` with both seats empty, the creator is recorded only as
`owner` (not as a member), and the creating client's structure — including
its `game_state`, so an InLobby session stays InLobby — is not written at
all by `handle_create_room`. -/
theorem create_room_no_autojoin
    (client : ClientC) (rooms : List RoomC) (player_name room_name : String)
    (r : RoomC)
    (hlog : client.logged_in = true)
    (hc : (handle_create_room client rooms player_name room_name).created = some r) :
    r.players_count = 0 ∧ r.player1 = "" ∧ r.player2 = "" ∧
    r.owner = player_name ∧
    (handle_create_room client rooms player_name room_name).client = client := by
  unfold handle_create_room at hc ⊢
  rw [hlog] at hc ⊢
  simp only [Bool.not_true, Bool.false_eq_true, if_false] at hc ⊢
  rcases hcr : create_room rooms room_name player_name with _ | ⟨nr, rooms2⟩
  · rw [hcr] at hc
    simp at hc
  · rw [hcr] at hc
    dsimp only at hc ⊢
    simp only [Option.some.injEq] at hc
    subst hc
    unfold create_room at hcr
    split at hcr
    · exact absurd hcr (by simp)
    · have := create_room_alloc_created rooms room_name player_name nr rooms2 hcr
      exact ⟨this.1, this.2.1, this.2.2.1, this.2.2.2.1, rfl⟩

/-- Witness for C8: a logged-in lobby client "alice" creating room "r1" on
a registry with one free slot gets a room with owner "alice", no members,
count 0, and the client record is untouched. -/
theorem create_room_no_autojoin_witness :
    ((⟨5, "alice", true, true, "", .CONNECTED, .IN_LOBBY, 0, 0⟩ : ClientC).logged_in
        = true) ∧
    ((handle_create_room ⟨5, "alice", true, true, "", .CONNECTED, .IN_LOBBY, 0, 0⟩
        [zeroRoom] "alice" "r1").created =
      some { zeroRoom with name := "r1", owner := "alice" }) ∧
    ({ zeroRoom with name := "r1", owner := "alice" } : RoomC).players_count = 0 ∧
    ((handle_create_room ⟨5, "alice", true, true, "", .CONNECTED, .IN_LOBBY, 0, 0⟩
        [zeroRoom] "alice" "r1").client =
      ⟨5, "alice", true, true, "", .CONNECTED, .IN_LOBBY, 0, 0⟩) := by
  have h := create_room_no_autojoin
    ⟨5, "alice", true, true, "", .CONNECTED, .IN_LOBBY, 0, 0⟩ [zeroRoom] "alice" "r1"
    { zeroRoom with name := "r1", owner := "alice" } (by decide) (by decide)
  exact ⟨by decide, by decide, h.1, h.2.2.2.2⟩

/-! ## C7: reconnect hand-over guard -/

/-- Counterexample to C7 as stated: `handle_reconnect_request` never checks
`logged_in` (the `loggedIn == true` condition appears only in the dead
helper `can_client_reconnect`): a preserved session that is Disconnected
but has `logged_in = false` is handed the socket anyway (and `logged_in` is
then forced to true). -/
theorem reconnect_ignores_logged_in_cex :
    ((handle_reconnect_validate
        [⟨-1, "alice", true, false, "", .DISCONNECTED, .IN_LOBBY, 100, 0⟩]
        ⟨42, "", true, false, "", .CONNECTED, .NOT_LOGGED_IN, 0, 0⟩
        "alice").handed_over = true) ∧
    ((⟨-1, "alice", true, false, "", .DISCONNECTED, .IN_LOBBY, 100, 0⟩ : ClientC).logged_in
        = false) := by decide

/-- C7 (amended): `handle_reconnect_request` performs the socket hand-over
exactly when an active session with the requested id exists whose
connection state is Disconnected or Timeout — `logged_in` is not part of
the guard (the hand-over itself sets it to true).  When no hand-over
happens, the reply is ReconnectFail (with a reason naming the state) and
both the session registry and the temporary client are left unchanged. -/
theorem reconnect_handover_iff (cs : List ClientC) (temp : ClientC) (player : String) :
    ((handle_reconnect_validate cs temp player).handed_over = true ↔
      ∃ c, find_client cs player = some c ∧
        (c.state = .DISCONNECTED ∨ c.state = .TIMEOUT)) ∧
    ((handle_reconnect_validate cs temp player).handed_over = false →
      (handle_reconnect_validate cs temp player).clients = cs ∧
      (handle_reconnect_validate cs temp player).temp = temp ∧
      ∃ m : Msg, (handle_reconnect_validate cs temp player).reply = some m ∧
        m.2.1 = .OP_RECONNECT_FAIL) := by
  unfold handle_reconnect_validate
  rcases h : find_client cs player with _ | old
  · refine ⟨⟨fun hcon => by simp at hcon, ?_⟩, fun _ => ⟨rfl, rfl, ⟨_, rfl, rfl⟩⟩⟩
    rintro ⟨c, hc, _⟩
    exact absurd hc (by simp)
  · dsimp only
    by_cases hrem : old.state = .REMOVED
    · rw [if_pos hrem]
      refine ⟨⟨fun hcon => by simp at hcon, ?_⟩, fun _ => ⟨rfl, rfl, ⟨_, rfl, rfl⟩⟩⟩
      rintro ⟨c, hc, hst⟩
      simp only [Option.some.injEq] at hc
      subst hc
      rw [hrem] at hst
      rcases hst with hd | hd <;> exact absurd hd (by decide)
    · rw [if_neg hrem]
      split
      · rename_i hcond
        simp only [Bool.and_eq_true, decide_eq_true_eq] at hcond
        refine ⟨⟨fun hcon => by simp at hcon, ?_⟩, fun _ => ⟨rfl, rfl, ⟨_, rfl, rfl⟩⟩⟩
        rintro ⟨c, hc, hst⟩
        simp only [Option.some.injEq] at hc
        subst hc
        rcases hst with hd | hd
        · exact (hcond.1 hd).elim
        · exact (hcond.2 hd).elim
      · rename_i hcond
        simp only [Bool.and_eq_true, decide_eq_true_eq, not_and_or, not_not] at hcond
        refine ⟨⟨fun _ => ⟨old, rfl, ?_⟩, fun _ => rfl⟩, fun hcon => by simp at hcon⟩
        rcases hcond with hd | hd
        · exact Or.inl hd
        · exact Or.inr hd

/-- Witness for C7 (amended): a request naming a session that is Connected
(ineligible) changes nothing and is answered with ReconnectFail. -/
theorem reconnect_handover_iff_witness :
    ((handle_reconnect_validate
        [⟨7, "alice", true, true, "", .CONNECTED, .IN_LOBBY, 0, 0⟩]
        ⟨42, "", true, false, "", .CONNECTED, .NOT_LOGGED_IN, 0, 0⟩
        "alice").clients =
      [⟨7, "alice", true, true, "", .CONNECTED, .IN_LOBBY, 0, 0⟩]) ∧
    (∃ m : Msg, (handle_reconnect_validate
        [⟨7, "alice", true, true, "", .CONNECTED, .IN_LOBBY, 0, 0⟩]
        ⟨42, "", true, false, "", .CONNECTED, .NOT_LOGGED_IN, 0, 0⟩
        "alice").reply = some m ∧ m.2.1 = .OP_RECONNECT_FAIL) := by
  have h := (reconnect_handover_iff
    [⟨7, "alice", true, true, "", .CONNECTED, .IN_LOBBY, 0, 0⟩]
    ⟨42, "", true, false, "", .CONNECTED, .NOT_LOGGED_IN, 0, 0⟩
    "alice").2 (by decide)
  exact ⟨h.1, h.2.2⟩

/-! ## C9: a failing MultiMove step is not rolled back -/

/-- `apply_single_step` writes only the board; `current_turn` is untouched. -/
lemma apply_single_step_current_turn (g : Game) (fr fc tr tc : Int) :
    (apply_single_step g fr fc tr tc).current_turn = g.current_turn := by
  unfold apply_single_step
  dsimp only
  split
  · rfl
  · split <;> rfl

/-- `apply_chain` never touches `current_turn`. -/
lemma apply_chain_current_turn :
    ∀ (steps : List ((Int × Int) × (Int × Int))) (g : Game),
      (apply_chain g steps).current_turn = g.current_turn := by
  intro steps
  induction steps with
  | nil => intro g; rfl
  | cons s rest ih =>
    intro g
    obtain ⟨f, t⟩ := s
    rw [apply_chain, ih, apply_move, apply_single_step_current_turn]

/-- The multi-move loop stops at the first failing step, keeping the
effects of the already-applied prefix. -/
lemma multi_move_chain_prefix :
    ∀ (pre : List ((Int × Int) × (Int × Int))) (g : Game) (player : String)
      (bad : (Int × Int) × (Int × Int)) (post : List ((Int × Int) × (Int × Int))),
      chain_valid g player pre = true →
      validate_move (apply_chain g pre) bad.1.1 bad.1.2 bad.2.1 bad.2.2 player = false →
      multi_move_chain g player (pre ++ bad :: post) = (apply_chain g pre, false) := by
  intro pre
  induction pre with
  | nil =>
    intro g player bad post _ hbad
    obtain ⟨f, t⟩ := bad
    dsimp only [apply_chain] at hbad
    simp only [List.nil_append, multi_move_chain, apply_chain]
    rw [if_neg (by simp [hbad])]
  | cons s0 rest ih =>
    intro g player bad post hpre hbad
    obtain ⟨f, t⟩ := s0
    simp only [chain_valid, Bool.and_eq_true] at hpre
    obtain ⟨hv, hrest⟩ := hpre
    simp only [apply_chain] at hbad
    simp only [List.cons_append, multi_move_chain]
    rw [if_pos hv, apply_chain]
    exact ih (apply_move g f.1 f.2 t.1 t.2) player bad post hrest hbad

/-- C9: if the i-th step of a MultiMove chain fails validation,
`handle_multi_move` replies InvalidMove (the failure flag of
`multi_move_core`) and returns with the board still containing the effects
of the already-applied steps 1..i-1 and with `current_turn` unchanged:
the partially applied chain is not rolled back. -/
theorem multi_move_partial_not_rolled_back
    (g : Game) (player : String) (path : List (Int × Int))
    (pre : List ((Int × Int) × (Int × Int))) (bad : (Int × Int) × (Int × Int))
    (post : List ((Int × Int) × (Int × Int)))
    (hsplit : path.zip path.tail = pre ++ bad :: post)
    (hpre : chain_valid g player pre = true)
    (hbad : validate_move (apply_chain g pre) bad.1.1 bad.1.2 bad.2.1 bad.2.2 player
      = false) :
    multi_move_core g player path = (apply_chain g pre, false) ∧
    (apply_chain g pre).current_turn = g.current_turn := by
  constructor
  · unfold multi_move_core
    rw [hsplit, multi_move_chain_prefix pre g player bad post hpre hbad]
  · exact apply_chain_current_turn pre g

/-- Witness for C9: in a fresh game "a" vs "b", the path (5,1)-(4,0)-(3,0)
has a valid first step and a non-diagonal second step; the handler leaves
the first step applied (a board different from the original), keeps the
turn with "a", and reports failure. -/
theorem multi_move_partial_not_rolled_back_witness :
    (multi_move_core (init_game "a" "b") "a" [(5, 1), (4, 0), (3, 0)] =
      (apply_chain (init_game "a" "b") [((5, 1), (4, 0))], false) ∧
     (apply_chain (init_game "a" "b") [((5, 1), (4, 0))]).current_turn =
      (init_game "a" "b").current_turn) ∧
    apply_chain (init_game "a" "b") [((5, 1), (4, 0))] ≠ init_game "a" "b" :=
  ⟨multi_move_partial_not_rolled_back (init_game "a" "b") "a"
      [(5, 1), (4, 0), (3, 0)] [((5, 1), (4, 0))] ((4, 0), (3, 0)) []
      (by decide) (by decide) (by decide),
   by decide⟩

/-! ## C6: explicit leave always destroys the room -/

/-- Updating the first matching client through a function that preserves
`active` and `client_id` commutes with `find_client`. -/
lemma find_client_update_first
    (cs : List ClientC) (id : String) (f : ClientC → ClientC)
    (hact : ∀ c, (f c).active = c.active)
    (hid : ∀ c, (f c).client_id = c.client_id) :
    find_client (update_first_client cs id f) id = (find_client cs id).map f := by
  induction cs with
  | nil => rfl
  | cons c rest ih =>
    unfold update_first_client
    by_cases hmatch : (c.active && c.client_id == id) = true
    · rw [if_pos hmatch]
      unfold find_client
      have hmatch' : ((f c).active && (f c).client_id == id) = true := by
        rw [hact, hid]
        exact hmatch
      rw [if_pos hmatch', if_pos hmatch]
      rfl
    · rw [if_neg hmatch]
      unfold find_client
      rw [if_neg hmatch, if_neg hmatch]
      exact ih

/-- A registry with no occupied slot of the given name finds nothing. -/
lemma find_room_none_of_countP_zero :
    ∀ (rooms : List RoomC) (room_name : String),
      rooms.countP (fun r => room_occupied r && r.name == room_name) = 0 →
      find_room rooms room_name = none := by
  intro rooms room_name
  induction rooms with
  | nil => intro _; rfl
  | cons r rest ih =>
    intro h
    unfold find_room
    by_cases hm : (room_occupied r && r.name == room_name) = true
    · rw [List.countP_cons_of_pos
        (fun r => room_occupied r && r.name == room_name) rest hm] at h
      omega
    · rw [if_neg hm]
      rw [List.countP_cons_of_neg
        (fun r => room_occupied r && r.name == room_name) rest hm] at h
      exact ih h

/-- The destroyed slot is invisible to `find_room`. -/
lemma find_room_cons_zeroRoom (rest : List RoomC) (room_name : String) :
    find_room (zeroRoom :: rest) room_name = find_room rest room_name := rfl

/-- C6: an explicit `leave_room` always destroys the room — even when a
seat is still filled — so `find_room` afterwards returns none (given that
occupied room names are unique, which `create_room`'s duplicate check
maintains); and when another member remains in a full room, that member is
sent `OP_ROOM_LEFT "room,player"` and its `current_room` is cleared (with a
transition to the lobby).  Instantiated right after `create_room`, this
gives `find(name) = none` (see the witness). -/
theorem leave_room_destroys
    (rooms : List RoomC) (cs : List ClientC) (room_name player_name : String)
    (huniq : rooms.countP (fun r => room_occupied r && r.name == room_name) ≤ 1) :
    find_room (leave_room rooms cs room_name player_name).1 room_name = none ∧
    (∀ r, find_room rooms room_name = some r →
      r.players_count = 2 →
      (r.player1 = player_name ∨ r.player2 = player_name) →
      leave_other r player_name ≠ "" →
      ∀ oc, find_client cs (leave_other r player_name) = some oc →
        ((oc.socket, OpCode.OP_ROOM_LEFT, room_name ++ "," ++ player_name) : Int × OpCode × String) ∈
          (leave_room rooms cs room_name player_name).2.2 ∧
        ∃ oc', find_client (leave_room rooms cs room_name player_name).2.1
            (leave_other r player_name) = some oc' ∧
          oc'.current_room = "" ∧ oc'.game_state = .IN_LOBBY) := by
  induction rooms with
  | nil =>
    constructor
    · rfl
    · intro r hfind
      exact absurd hfind (by simp [find_room])
  | cons r0 rest ih =>
    by_cases hm : (room_occupied r0 && r0.name == room_name) = true
    · have hrest0 : rest.countP (fun r => room_occupied r && r.name == room_name) = 0 := by
        rw [List.countP_cons_of_pos
          (fun r => room_occupied r && r.name == room_name) rest hm] at huniq
        omega
      have hnone : find_room rest room_name = none :=
        find_room_none_of_countP_zero rest room_name hrest0
      constructor
      · unfold leave_room
        rw [if_pos hm]
        split
        · rw [find_room_cons_zeroRoom]
          exact hnone
        · split
          · rw [find_room_cons_zeroRoom]
            exact hnone
          · split
            · rw [find_room_cons_zeroRoom]
              exact hnone
            · rw [find_room_cons_zeroRoom]
              exact hnone
      · intro r hfind h2 _ hother oc hoc
        have hr : r0 = r := by
          unfold find_room at hfind
          rw [if_pos hm] at hfind
          simp only [Option.some.injEq] at hfind
          exact hfind
        subst hr
        have hcnt : ¬ (r0.players_count - 1 = 0) := by
          rw [h2]
          decide
        unfold leave_room
        rw [if_pos hm, if_neg hcnt]
        by_cases hp1 : r0.player1 = player_name
        · have hlo : leave_other r0 player_name = r0.player2 := by
            unfold leave_other
            rw [if_pos hp1]
          rw [hlo] at hother hoc
          have hbeq : ¬ ((r0.player1 != player_name) = true) := by
            simp [hp1]
          have hbne2 : (r0.player2 != "") = true := by
            simpa using hother
          rw [if_neg hbeq, if_pos hbne2]
          unfold notify_leave
          rw [hoc]
          dsimp only
          constructor
          · exact List.mem_singleton.mpr rfl
          · rw [hlo, find_client_update_first cs r0.player2
                (fun c => { c with current_room := "", game_state := .IN_LOBBY })
                (fun c => rfl) (fun c => rfl), hoc]
            exact ⟨_, rfl, rfl, rfl⟩
        · have hlo : leave_other r0 player_name = r0.player1 := by
            unfold leave_other
            rw [if_neg hp1]
          rw [hlo] at hother hoc
          have hbeq : (r0.player1 != player_name) = true := by
            simpa using hp1
          rw [if_pos hbeq]
          unfold notify_leave
          rw [hoc]
          dsimp only
          constructor
          · exact List.mem_singleton.mpr rfl
          · rw [hlo, find_client_update_first cs r0.player1
                (fun c => { c with current_room := "", game_state := .IN_LOBBY })
                (fun c => rfl) (fun c => rfl), hoc]
            exact ⟨_, rfl, rfl, rfl⟩
    · have huniq' : rest.countP (fun r => room_occupied r && r.name == room_name) ≤ 1 := by
        rw [List.countP_cons_of_neg
          (fun r => room_occupied r && r.name == room_name) rest hm] at huniq
        exact huniq
      obtain ⟨ih1, ih2⟩ := ih huniq'
      constructor
      · unfold leave_room
        rw [if_neg hm]
        dsimp only
        unfold find_room
        rw [if_neg hm]
        exact ih1
      · intro r hfind h2 hmem hother oc hoc
        have hfind' : find_room rest room_name = some r := by
          unfold find_room at hfind
          rw [if_neg hm] at hfind
          exact hfind
        obtain ⟨hmsg, hcl⟩ := ih2 r hfind' h2 hmem hother oc hoc
        unfold leave_room
        rw [if_neg hm]
        exact ⟨hmsg, hcl⟩

/-- Witness for C6: leave immediately after create.  "alice" creates room
"lobby1" (owner set, zero members) and leaves it at once; afterwards
`find_room "lobby1"` returns none. -/
theorem leave_room_destroys_witness :
    ([({ zeroRoom with name := "lobby1", owner := "alice" } : RoomC)].countP
        (fun r => room_occupied r && r.name == "lobby1") ≤ 1) ∧
    find_room (leave_room [({ zeroRoom with name := "lobby1", owner := "alice" } : RoomC)]
        [] "lobby1" "alice").1 "lobby1" = none :=
  ⟨by decide,
   (leave_room_destroys [{ zeroRoom with name := "lobby1", owner := "alice" }]
      [] "lobby1" "alice" (by decide)).1⟩

end CheckersTCP
